import Mathlib

/-!
Verification of the browser perception / action engine of this repository.

Each section embeds one part of the source shallowly in Lean:
* the DOM snapshot builder `window.buildDomTree` (content script),
* the navigator agent's step / multi-action loop (`NavigatorAgent`),
* the page abstraction (`Page._updateState`, `Page.locateElement`,
  `Page.selectDropdownOption`, `Page.scrollDown`, `Page.isFileUploader`),
* the humanized scrolling layer (`HumanInteraction.humanScroll`),
* the action dispatch layer (`Action.call`, `ActionBuilder.buildDefaultActions`).

Host-environment calls (DOM predicates, puppeteer round trips, the model
oracle) are parameters of the embedding: each theorem quantifies over their
outcomes.
-/

namespace Nanobrowser

/-! ## DOM snapshot builder (`window.buildDomTree`)

`buildDomTree` walks the live DOM.  The host-side predicates
`isElementAccepted`, `isInteractiveElement`, `isElementVisible`,
`isTopElement` and `isTextNodeVisible` inspect the live document; their
outcomes are recorded on the input node.  `flagsThrow` models the
acknowledged `try`/`catch` around the three flag computations (source:
on a throw the node gets default flags `isInteractive = false`,
`isVisible = true`, `isTopElement = false` and no highlight index). -/

/-- Outcomes of the per-element host predicates of `buildDomTree`. -/
structure ElemData where
  /-- result of `isElementAccepted` -/
  accepted : Bool
  /-- result of `isInteractiveElement` -/
  interactive : Bool
  /-- result of `isElementVisible` -/
  visible : Bool
  /-- result of `isTopElement` -/
  top : Bool
  /-- the flag-computation block throws (caught; defaults are used) -/
  flagsThrow : Bool
  deriving Repr, DecidableEq

mutual
/-- Input DOM node as seen by `buildDomTree`: a text node together with the
outcome of `isTextNodeVisible`, or an element with its predicate outcomes and
its child list (shadow-root children, iframe body children and regular
children, in the order the source pushes them). -/
inductive DomNode where
  | text (content : String) (visible : Bool)
  | elem (data : ElemData) (kids : DomForest)
  deriving Repr, DecidableEq

/-- A list of sibling `DomNode`s. -/
inductive DomForest where
  | nil
  | cons (head : DomNode) (tail : DomForest)
  deriving Repr, DecidableEq
end

mutual
/-- Output node of `buildDomTree` (the serialized `nodeData`): geometry and
selector fields are omitted, the fields the claims are about are kept. -/
inductive SnapNode where
  | text (content : String)
  | elem (isInteractive isVisible isTop : Bool) (highlightIndex : Option Nat)
      (children : SnapForest)
  deriving Repr, DecidableEq

/-- A list of serialized sibling nodes. -/
inductive SnapForest where
  | nil
  | cons (head : SnapNode) (tail : SnapForest)
  deriving Repr, DecidableEq
end

mutual
/-- Embedding of the recursive `buildDomTree(node, parentIframe)` of the
content script.  The counter is the closure variable `highlightIndex`
(initialized to `0` by `window.buildDomTree`); it is threaded in state-passing
style and returned alongside the optional serialized node.
* text nodes: kept iff the trimmed content is non-empty and the node is
  visible; they never carry flags or an index;
* rejected elements (`isElementAccepted` false) contribute `none`;
* accepted elements: the three flags are computed; if all three are true the
  element receives `highlightIndex++`; if the flag block throws, the catch
  records defaults `(false, true, false)` and no index;
* children are then serialized left to right with the updated counter. -/
def buildDomTree : DomNode → Nat → Option SnapNode × Nat
  | .text s vis, c =>
      (if s.trim ≠ "" ∧ vis = true then some (.text s.trim) else none, c)
  | .elem d kids, c =>
      if d.accepted = false then (none, c)
      else
        let flagsIdx : (Bool × Bool × Bool) × Option Nat × Nat :=
          if d.flagsThrow then ((false, true, false), none, c)
          else if d.interactive && d.visible && d.top then
            ((d.interactive, d.visible, d.top), some c, c + 1)
          else ((d.interactive, d.visible, d.top), none, c)
        let rest := buildForest kids flagsIdx.2.2
        (some (.elem flagsIdx.1.1 flagsIdx.1.2.1 flagsIdx.1.2.2 flagsIdx.2.1
          rest.1), rest.2)

/-- Serialize a sibling list: children that serialize to `null` are filtered
out (`filter(Boolean)` in the source). -/
def buildForest : DomForest → Nat → SnapForest × Nat
  | .nil, c => (.nil, c)
  | .cons n rest, c =>
      let r := buildDomTree n c
      let rr := buildForest rest r.2
      (match r.1 with
        | some sn => .cons sn rr.1
        | none => rr.1, rr.2)
end

mutual
/-- All nodes of a serialized tree, in document-traversal (pre-)order. -/
def SnapNode.allNodes : SnapNode → List SnapNode
  | .text s => [.text s]
  | .elem i v t hi kids => .elem i v t hi kids :: kids.allNodesF

/-- All nodes of a serialized forest, in document-traversal order. -/
def SnapForest.allNodesF : SnapForest → List SnapNode
  | .nil => []
  | .cons n rest => n.allNodes ++ rest.allNodesF
end

mutual
/-- The highlight indices of a serialized tree, in document-traversal order. -/
def SnapNode.indices : SnapNode → List Nat
  | .text _ => []
  | .elem _ _ _ hi kids => hi.toList ++ kids.indicesF

/-- The highlight indices of a serialized forest, in document-traversal
order. -/
def SnapForest.indicesF : SnapForest → List Nat
  | .nil => []
  | .cons n rest => n.indices ++ rest.indicesF
end

/-- The indices of an optional serialized node. -/
def indicesOpt : Option SnapNode → List Nat
  | none => []
  | some sn => sn.indices

/-- Two adjacent contiguous runs of naturals concatenate to one run. -/
theorem range'_glue (c a b : Nat) (h1 : c ≤ a) (h2 : a ≤ b) :
    List.range' c (a - c) ++ List.range' a (b - a) = List.range' c (b - c) := by
  have h := List.range'_append_1 c (a - c) (b - a)
  rw [show c + (a - c) = a by omega] at h
  rw [h]
  congr 1
  omega

mutual
/-- Counter/index bookkeeping of `buildDomTree`: starting the traversal of a
node at counter `c` yields exactly the indices `c, c+1, …` (a contiguous run)
in document-traversal order, and the counter never decreases. -/
theorem buildDomTree_indices (n : DomNode) (c : Nat) :
    indicesOpt (buildDomTree n c).1 =
      List.range' c ((buildDomTree n c).2 - c) ∧ c ≤ (buildDomTree n c).2 := by
  match n with
  | .text s vis =>
      simp only [buildDomTree]
      by_cases h : s.trim ≠ "" ∧ vis = true <;> simp [h, indicesOpt, SnapNode.indices]
  | .elem ⟨acc, inter, vis, top, thr⟩ kids =>
      cases acc with
      | false => simp [buildDomTree, indicesOpt]
      | true =>
        cases thr with
        | true =>
          have hk := buildForest_indices kids c
          simp only [buildDomTree, Bool.true_eq_false, if_false, if_true,
            indicesOpt, SnapNode.indices, Option.toList]
          exact ⟨by simpa using hk.1, hk.2⟩
        | false =>
          by_cases hflags : (inter && vis && top) = true
          · have hk := buildForest_indices kids (c + 1)
            simp only [buildDomTree, Bool.true_eq_false, Bool.false_eq_true,
              if_false, hflags, if_true, indicesOpt, SnapNode.indices,
              Option.toList]
            refine ⟨?_, le_trans (Nat.le_succ c) hk.2⟩
            have h1 : (buildForest kids (c + 1)).2 - c =
                ((buildForest kids (c + 1)).2 - (c + 1)) + 1 := by omega
            rw [h1, List.range'_succ]
            simpa using hk.1
          · have hk := buildForest_indices kids c
            simp only [buildDomTree, Bool.true_eq_false, Bool.false_eq_true,
              if_false, hflags, indicesOpt, SnapNode.indices, Option.toList]
            exact ⟨by simpa using hk.1, hk.2⟩

/-- Forest version of `buildDomTree_indices`. -/
theorem buildForest_indices (f : DomForest) (c : Nat) :
    (buildForest f c).1.indicesF =
      List.range' c ((buildForest f c).2 - c) ∧ c ≤ (buildForest f c).2 := by
  match f with
  | .nil => simp [buildForest, SnapForest.indicesF]
  | .cons n rest =>
      have hn := buildDomTree_indices n c
      have hr := buildForest_indices rest (buildDomTree n c).2
      simp only [buildForest]
      constructor
      · have hcat : SnapForest.indicesF
              (match (buildDomTree n c).1 with
                | some sn => SnapForest.cons sn (buildForest rest (buildDomTree n c).2).1
                | none => (buildForest rest (buildDomTree n c).2).1) =
            indicesOpt (buildDomTree n c).1 ++
              (buildForest rest (buildDomTree n c).2).1.indicesF := by
          cases h : (buildDomTree n c).1 <;> simp [SnapForest.indicesF, indicesOpt]
        rw [hcat, hn.1, hr.1]
        exact range'_glue c _ _ hn.2 hr.2
      · exact le_trans hn.2 hr.2
end

mutual
/-- Every element node serialized by `buildDomTree` carries a highlight index
exactly when its three recorded flags are all true. -/
theorem buildDomTree_flags (n : DomNode) (c : Nat) :
    ∀ sn, (buildDomTree n c).1 = some sn →
      ∀ x ∈ sn.allNodes, ∀ i v t hi kids,
        x = SnapNode.elem i v t hi kids → hi.isSome = (i && v && t) := by
  match n with
  | .text s vis =>
      intro sn hsn x hx i v t hi kids hxe
      simp only [buildDomTree] at hsn
      by_cases h : s.trim ≠ "" ∧ vis = true
      · rw [if_pos h] at hsn
        injection hsn with hsn
        rw [← hsn] at hx
        simp [SnapNode.allNodes] at hx
        rw [hx] at hxe
        exact absurd hxe (by simp)
      · rw [if_neg h] at hsn
        exact absurd hsn (by simp)
  | .elem ⟨acc, inter, vis, top, thr⟩ kids =>
      intro sn hsn x hx i v t hi kds hxe
      cases acc with
      | false => simp [buildDomTree] at hsn
      | true =>
        cases thr with
        | true =>
          simp only [buildDomTree, Bool.true_eq_false, if_false, if_true,
            Option.some.injEq] at hsn
          rw [← hsn] at hx
          simp only [SnapNode.allNodes, List.mem_cons] at hx
          rcases hx with hx | hx
          · rw [hx] at hxe
            cases hxe
            simp
          · exact buildForest_flags kids c x hx i v t hi kds hxe
        | false =>
          by_cases hflags : (inter && vis && top) = true
          · simp only [buildDomTree, Bool.true_eq_false, Bool.false_eq_true,
              if_false, hflags, if_true, Option.some.injEq] at hsn
            rw [← hsn] at hx
            simp only [SnapNode.allNodes, List.mem_cons] at hx
            rcases hx with hx | hx
            · rw [hx] at hxe
              cases hxe
              simp [hflags]
            · exact buildForest_flags kids (c + 1) x hx i v t hi kds hxe
          · simp only [buildDomTree, Bool.true_eq_false, Bool.false_eq_true,
              if_false, hflags, Option.some.injEq] at hsn
            rw [← hsn] at hx
            simp only [SnapNode.allNodes, List.mem_cons] at hx
            rcases hx with hx | hx
            · rw [hx] at hxe
              cases hxe
              simp [hflags]
            · exact buildForest_flags kids c x hx i v t hi kds hxe

/-- Forest version of `buildDomTree_flags`. -/
theorem buildForest_flags (f : DomForest) (c : Nat) :
    ∀ x ∈ ((buildForest f c).1).allNodesF, ∀ i v t hi kids,
      x = SnapNode.elem i v t hi kids → hi.isSome = (i && v && t) := by
  match f with
  | .nil =>
      intro x hx
      simp [buildForest, SnapForest.allNodesF] at hx
  | .cons n rest =>
      intro x hx i v t hi kds hxe
      simp only [buildForest] at hx
      have hsplit : x ∈ (match (buildDomTree n c).1 with
            | some sn => SnapForest.cons sn (buildForest rest (buildDomTree n c).2).1
            | none => (buildForest rest (buildDomTree n c).2).1).allNodesF →
          (∃ sn, (buildDomTree n c).1 = some sn ∧ x ∈ sn.allNodes) ∨
            x ∈ ((buildForest rest (buildDomTree n c).2).1).allNodesF := by
        cases h : (buildDomTree n c).1 with
        | none => intro hx2; exact Or.inr hx2
        | some sn =>
            intro hx2
            simp only [SnapForest.allNodesF, List.mem_append] at hx2
            rcases hx2 with hx2 | hx2
            · exact Or.inl ⟨sn, rfl, hx2⟩
            · exact Or.inr hx2
      rcases hsplit hx with ⟨sn, hsn, hmem⟩ | hmem
      · exact buildDomTree_flags n c sn hsn x hmem i v t hi kds hxe
      · exact buildForest_flags rest (buildDomTree n c).2 x hmem i v t hi kds hxe
end

/-- **C1.** In the DOM snapshot builder, for every element node processed in
a snapshot, the element is assigned a highlight index if and only if all
three flags hold (interactive, visible, topmost-at-point); an element for
which any one of the three flags is false never receives a highlight index. -/
theorem highlightIndex_iff_flags (root : DomNode) (c : Nat) (sn : SnapNode)
    (h : (buildDomTree root c).1 = some sn)
    (x : SnapNode) (hx : x ∈ sn.allNodes)
    (i v t : Bool) (hi : Option Nat) (kids : SnapForest)
    (hxe : x = SnapNode.elem i v t hi kids) :
    hi.isSome = (i && v && t) :=
  buildDomTree_flags root c sn h x hx i v t hi kids hxe

/-- Concrete document used as a witness: a non-interactive accepted element
containing one interactive + visible + topmost child. -/
def witnessDom : DomNode :=
  .elem ⟨true, false, true, true, false⟩
    (.cons (.elem ⟨true, true, true, true, false⟩ .nil) .nil)

/-- Serialization of `witnessDom`: the child receives highlight index 0. -/
def witnessSnap : SnapNode :=
  .elem false true true none (.cons (.elem true true true (some 0) .nil) .nil)

/-- Witness for **C1** at the concrete document `witnessDom`. -/
theorem highlightIndex_iff_flags_witness :
    (some 0 : Option Nat).isSome = (true && true && true) :=
  highlightIndex_iff_flags witnessDom 0 witnessSnap (by decide)
    (SnapNode.elem true true true (some 0) .nil) (by decide)
    true true true (some 0) .nil rfl

/-- **C2.** Within one snapshot produced by the DOM snapshot builder (whose
counter `highlightIndex` starts at 0), the highlight indices in
document-traversal order are exactly `0, 1, …, m-1`: they are unique, start
at 0, and are strictly monotonically increasing in traversal order. -/
theorem highlightIndices_unique_monotone (root : DomNode) (sn : SnapNode)
    (m : Nat) (h : buildDomTree root 0 = (some sn, m)) :
    sn.indices = List.range m ∧ sn.indices.Nodup ∧
      sn.indices.Sorted (· < ·) := by
  have h1 := (buildDomTree_indices root 0).1
  rw [h] at h1
  simp only [indicesOpt] at h1
  have h2 : sn.indices = List.range m := by
    rw [h1, Nat.sub_zero, List.range_eq_range']
  refine ⟨h2, ?_, ?_⟩
  · rw [h2]; exact List.nodup_range m
  · rw [h2]; exact List.sorted_lt_range m

/-- Witness for **C2** at the concrete document `witnessDom`. -/
theorem highlightIndices_unique_monotone_witness :
    witnessSnap.indices = List.range 1 ∧ witnessSnap.indices.Nodup ∧
      witnessSnap.indices.Sorted (· < ·) :=
  highlightIndices_unique_monotone witnessDom witnessSnap 1 (by decide)

/-! ## Navigator agent (`NavigatorAgent.doMultiAction`, `NavigatorAgent.execute`)

The multi-action loop iterates over the model-proposed actions; at the top of
every iteration, and again right after an action's result is pushed, it reads
`this.context.paused || this.context.stopped` and returns the results
collected so far if the flag is set.  A failed action call is caught, pushed
as an error `ActionResult`, and counted; more than 3 errors abort the whole
step with a thrown error. -/

/-- The result of one action invocation
(`src/chrome-extension/src/background/agent/types` `ActionResult`). -/
structure ActionResult where
  extractedContent : Option String := none
  error : Option String := none
  isDone : Bool := false
  includeInMemory : Bool := false
  deriving Repr, DecidableEq

/-- Interaction outcomes of one multi-action step, indexed by action
position: the paused/stopped flag as observed at the check before action `k`
(`preFlag k`), at the check after action `k` succeeded (`postFlag k`), and
the outcome of `actionRegistry.getAction(name)?.call(args)` for action `k`
(`.error` = the call threw, or the action does not exist). -/
structure MultiActionEnv where
  preFlag : Nat → Bool
  postFlag : Nat → Bool
  callResult : Nat → Except String ActionResult

/-- The `ActionResult` the loop pushes for action `k`: the returned result on
success, or `new ActionResult({error, isDone: false, includeInMemory: true})`
when the call threw. -/
def callOutcome (env : MultiActionEnv) (k : Nat) : ActionResult :=
  match env.callResult k with
  | .ok r => r
  | .error msg => ⟨none, some msg, false, true⟩

/-- Whether the call of action `k` threw. -/
def callErred (env : MultiActionEnv) (k : Nat) : Bool :=
  match env.callResult k with
  | .ok _ => false
  | .error _ => true

/-- Embedding of the `for (const action of actions)` loop of
`NavigatorAgent.doMultiAction` (the action list is already parsed and
null-filtered upstream; actions are identified by position).  State:
remaining actions, absolute index `i` of the next action, `errCount`, and the
accumulated `results`.  Returns the outcome (`.error` = the loop threw
`Too many errors in actions`) and the number of actions whose call was
invoked. -/
def doMultiActionAux (env : MultiActionEnv) :
    List Unit → Nat → Nat → List ActionResult →
      Except String (List ActionResult) × Nat
  | [], _, _, acc => (.ok acc, 0)
  | _ :: rest, i, errCount, acc =>
      if env.preFlag i then (.ok acc, 0)
      else
        match env.callResult i with
        | .ok r =>
            if env.postFlag i then (.ok (acc ++ [r]), 1)
            else
              let res := doMultiActionAux env rest (i + 1) errCount (acc ++ [r])
              (res.1, res.2 + 1)
        | .error msg =>
            if errCount + 1 > 3 then (.error "Too many errors in actions", 1)
            else
              let res := doMultiActionAux env rest (i + 1) (errCount + 1)
                (acc ++ [(⟨none, some msg, false, true⟩ : ActionResult)])
              (res.1, res.2 + 1)

/-- `doMultiAction` over `n` parsed actions, starting with no results and
`errCount = 0`. -/
def doMultiAction (env : MultiActionEnv) (n : Nat) :
    Except String (List ActionResult) × Nat :=
  doMultiActionAux env (List.replicate n ()) 0 0 []

/-- Stop at a pre-check: if the flags are clear at every check before
absolute index `i + j`, and set at the pre-check of `i + j`, the loop
executes exactly the `j` actions `i, …, i+j-1` and returns the results
collected so far. -/
theorem doMultiActionAux_preStop (env : MultiActionEnv) :
    ∀ (j : Nat) (acts : List Unit) (i errCount : Nat) (acc : List ActionResult),
      j + 1 ≤ acts.length →
      (∀ k, i ≤ k → k < i + j → env.preFlag k = false) →
      env.preFlag (i + j) = true →
      (∀ k, i ≤ k → k < i + j → ∀ r, env.callResult k = .ok r →
        env.postFlag k = false) →
      errCount + ((List.range' i j).countP (callErred env)) ≤ 3 →
      doMultiActionAux env acts i errCount acc =
        (.ok (acc ++ (List.range' i j).map (callOutcome env)), j) := by
  intro j
  induction j with
  | zero =>
      intro acts i errCount acc hlen _hpre hstop _hpost _herr
      match acts with
      | a :: rest =>
          simp only [doMultiActionAux, Nat.add_zero] at *
          simp [hstop]
  | succ j ih =>
      intro acts i errCount acc hlen hpre hstop hpost herr
      match acts with
      | a :: rest =>
          have hpre_i : env.preFlag i = false := hpre i le_rfl (by omega)
          simp only [doMultiActionAux, hpre_i, if_false, Bool.false_eq_true]
          have hrange : List.range' i (j + 1) = i :: List.range' (i + 1) j :=
            List.range'_succ i j 1
          cases hcall : env.callResult i with
          | ok r =>
              have hpost_i : env.postFlag i = false :=
                hpost i le_rfl (by omega) r hcall
              simp only [hpost_i, if_false, Bool.false_eq_true]
              have hc : callErred env i = false := by simp [callErred, hcall]
              have herr2 : errCount +
                  ((List.range' (i + 1) j).countP (callErred env)) ≤ 3 := by
                rw [hrange] at herr
                simp [List.countP_cons, hc] at herr
                omega
              have := ih rest (i + 1) errCount (acc ++ [r])
                (by simpa using hlen)
                (fun k hk1 hk2 => hpre k (by omega) (by omega))
                (by rw [show i + 1 + j = i + (j + 1) by omega]; exact hstop)
                (fun k hk1 hk2 => hpost k (by omega) (by omega)) herr2
              rw [this]
              simp [hrange, List.map_cons, callOutcome, hcall, List.append_assoc]
          | error msg =>
              have hc : callErred env i = true := by simp [callErred, hcall]
              have herrle : errCount + 1 ≤ 3 := by
                rw [hrange] at herr
                simp [List.countP_cons, hc] at herr
                omega
              have hne : ¬ (errCount + 1 > 3) := by omega
              simp only [hne, if_false]
              have herr2 : (errCount + 1) +
                  ((List.range' (i + 1) j).countP (callErred env)) ≤ 3 := by
                rw [hrange] at herr
                simp [List.countP_cons, hc] at herr
                omega
              have := ih rest (i + 1) (errCount + 1)
                (acc ++ [(⟨none, some msg, false, true⟩ : ActionResult)])
                (by simpa using hlen)
                (fun k hk1 hk2 => hpre k (by omega) (by omega))
                (by rw [show i + 1 + j = i + (j + 1) by omega]; exact hstop)
                (fun k hk1 hk2 => hpost k (by omega) (by omega)) herr2
              rw [this]
              simp [hrange, List.map_cons, callOutcome, hcall, List.append_assoc]

/-- Stop at a post-check: if the flags are clear at every check before the
post-check of absolute index `i + j`, action `i + j` succeeds and the flags
are set at its post-check, the loop executes exactly the `j + 1` actions
`i, …, i+j` and returns the results collected so far. -/
theorem doMultiActionAux_postStop (env : MultiActionEnv) :
    ∀ (j : Nat) (acts : List Unit) (i errCount : Nat) (acc : List ActionResult),
      j + 1 ≤ acts.length →
      (∀ k, i ≤ k → k ≤ i + j → env.preFlag k = false) →
      (∀ k, i ≤ k → k < i + j → ∀ r, env.callResult k = .ok r →
        env.postFlag k = false) →
      (∃ r, env.callResult (i + j) = .ok r) →
      env.postFlag (i + j) = true →
      errCount + ((List.range' i j).countP (callErred env)) ≤ 3 →
      doMultiActionAux env acts i errCount acc =
        (.ok (acc ++ (List.range' i (j + 1)).map (callOutcome env)), j + 1) := by
  intro j
  induction j with
  | zero =>
      intro acts i errCount acc hlen hpre _hpost hok hstop _herr
      match acts with
      | a :: rest =>
          obtain ⟨r, hr⟩ := hok
          have hpre_i : env.preFlag i = false := hpre i le_rfl (by omega)
          rw [Nat.add_zero] at hr hstop
          simp only [doMultiActionAux, hpre_i, Bool.false_eq_true, if_false,
            hr, hstop, if_true]
          simp [callOutcome, hr, List.range'_succ]
  | succ j ih =>
      intro acts i errCount acc hlen hpre hpost hok hstop herr
      match acts with
      | a :: rest =>
          have hpre_i : env.preFlag i = false := hpre i le_rfl (by omega)
          simp only [doMultiActionAux, hpre_i, if_false, Bool.false_eq_true]
          have hrange : List.range' i (j + 1) = i :: List.range' (i + 1) j :=
            List.range'_succ i j 1
          have hrange2 : List.range' i (j + 2) = i :: List.range' (i + 1) (j + 1) :=
            List.range'_succ i (j + 1) 1
          cases hcall : env.callResult i with
          | ok r =>
              have hpost_i : env.postFlag i = false :=
                hpost i le_rfl (by omega) r hcall
              simp only [hpost_i, if_false, Bool.false_eq_true]
              have hc : callErred env i = false := by simp [callErred, hcall]
              have herr2 : errCount +
                  ((List.range' (i + 1) j).countP (callErred env)) ≤ 3 := by
                rw [hrange] at herr
                simp [List.countP_cons, hc] at herr
                omega
              have := ih rest (i + 1) errCount (acc ++ [r])
                (by simpa using hlen)
                (fun k hk1 hk2 => hpre k (by omega) (by omega))
                (fun k hk1 hk2 => hpost k (by omega) (by omega))
                (by rw [show i + 1 + j = i + (j + 1) by omega]; exact hok)
                (by rw [show i + 1 + j = i + (j + 1) by omega]; exact hstop)
                herr2
              rw [this]
              simp [hrange2, List.map_cons, callOutcome, hcall, List.append_assoc]
          | error msg =>
              have hc : callErred env i = true := by simp [callErred, hcall]
              have herrle : errCount + 1 ≤ 3 := by
                rw [hrange] at herr
                simp [List.countP_cons, hc] at herr
                omega
              have hne : ¬ (errCount + 1 > 3) := by omega
              simp only [hne, if_false]
              have herr2 : (errCount + 1) +
                  ((List.range' (i + 1) j).countP (callErred env)) ≤ 3 := by
                rw [hrange] at herr
                simp [List.countP_cons, hc] at herr
                omega
              have := ih rest (i + 1) (errCount + 1)
                (acc ++ [(⟨none, some msg, false, true⟩ : ActionResult)])
                (by simpa using hlen)
                (fun k hk1 hk2 => hpre k (by omega) (by omega))
                (fun k hk1 hk2 => hpost k (by omega) (by omega))
                (by rw [show i + 1 + j = i + (j + 1) by omega]; exact hok)
                (by rw [show i + 1 + j = i + (j + 1) by omega]; exact hstop)
                herr2
              rw [this]
              simp [hrange2, List.map_cons, callOutcome, hcall, List.append_assoc]

/-- **C3.** In a multi-action step (`doMultiAction`), the paused/stopped
flags are checked before every single action; if the task is cancelled
between action `N` and action `N+1` (the stop is observed either at the
post-check after action `N` completes or at the pre-check before action
`N+1`), then action `N+1` is never executed — exactly actions `0, …, N` run —
and the results collected so far are returned. -/
theorem doMultiAction_cancel (env : MultiActionEnv) (n N : Nat)
    (hn : N + 1 < n)
    (hpre : ∀ k, k ≤ N → env.preFlag k = false)
    (hpost : ∀ k, k < N → ∀ r, env.callResult k = .ok r →
      env.postFlag k = false)
    (herr : ((List.range' 0 (N + 1)).countP (callErred env)) ≤ 3)
    (hstop : ((∃ r, env.callResult N = .ok r) ∧ env.postFlag N = true) ∨
      (env.preFlag (N + 1) = true ∧
        (∀ r, env.callResult N = .ok r → env.postFlag N = false))) :
    doMultiAction env n =
      (.ok ((List.range (N + 1)).map (callOutcome env)), N + 1) := by
  unfold doMultiAction
  have herrN : ((List.range' 0 N).countP (callErred env)) ≤ 3 := by
    rw [List.range'_1_concat, List.countP_append] at herr
    omega
  rcases hstop with ⟨hok, hflag⟩ | ⟨hflag, hpostN⟩
  · have := doMultiActionAux_postStop env N (List.replicate n ()) 0 0 []
      (by simp; omega)
      (fun k _ hk2 => hpre k (by omega))
      (fun k _ hk2 r hr => hpost k (by omega) r hr)
      (by simpa using hok) (by simpa using hflag) (by simpa using herrN)
    rw [this, List.range_eq_range']
    simp
  · have := doMultiActionAux_preStop env (N + 1) (List.replicate n ()) 0 0 []
      (by simp; omega)
      (fun k _ hk2 => hpre k (by omega))
      (by simpa using hflag)
      (fun k _ hk2 r hr => by
        rcases Nat.lt_succ_iff_lt_or_eq.1 (by omega : k < N + 1) with h | h
        · exact hpost k h r hr
        · subst h; exact hpostN r hr)
      (by simpa using herr)
    rw [this, List.range_eq_range']
    simp

/-- Concrete multi-action environment for the witness: the stop flag is
observed (only) at the pre-check of action 1; every call succeeds. -/
def witnessMAEnv : MultiActionEnv :=
  ⟨fun k => k == 1, fun _ => false, fun _ => .ok ⟨none, none, false, true⟩⟩

/-- Witness for **C3**: with three proposed actions and cancellation observed
between action 0 and action 1, exactly action 0 runs and its single result is
returned. -/
theorem doMultiAction_cancel_witness :
    doMultiAction witnessMAEnv 3 =
      (.ok ((List.range 1).map (callOutcome witnessMAEnv)), 1) :=
  doMultiAction_cancel witnessMAEnv 3 0 (by decide)
    (fun k hk => by
      have hk0 : k = 0 := Nat.le_zero.mp hk
      subst hk0
      rfl)
    (fun k hk => absurd hk (Nat.not_lt_zero k))
    (by decide)
    (Or.inr ⟨rfl, fun r _ => rfl⟩)

/-! ## Navigator cycle error handling (`NavigatorAgent.execute`)

One call of `NavigatorAgent.execute` runs one cycle: it increments `nSteps`
(failing the task beyond `maxSteps`), emits `STEP_START`, invokes the model
and executes the proposed actions, and on success reports done/not-done.  The
`catch` block increments `consecutiveFailures`; once the counter reaches
`options.maxFailures` it emits `TASK_FAIL` and returns an error output;
otherwise it emits `STEP_FAIL`, injects a recovery message (whose own failure
also fails the task), and returns a non-done result so the driver re-enters
the cycle.  (The error-message truncation by `maxErrorLength` is not
modelled; messages are carried verbatim.) -/

/-- Lifecycle events emitted by the navigator during one cycle. -/
inductive AgentEvent where
  | stepStart (msg : String)
  | stepFail (msg : String)
  | taskFail (msg : String)
  | taskOk (msg : String)
  deriving Repr, DecidableEq

/-- How one cycle's body (model invocation + multi-action execution) went:
`ok isDone` = no throw, `isDone` = some action result had `isDone`;
`fail msg recoveryFails` = the body threw `msg`, and `recoveryFails` says
whether adding the recovery message to memory itself throws. -/
inductive CycleOutcome where
  | ok (isDone : Bool)
  | fail (msg : String) (recoveryFails : Bool)
  deriving Repr, DecidableEq

/-- The mutable counters of `AgentContext` that `NavigatorAgent.execute`
reads and writes. -/
structure NavContext where
  nSteps : Nat
  maxSteps : Nat
  consecutiveFailures : Nat
  maxFailures : Nat
  deriving Repr, DecidableEq

/-- Embedding of `NavigatorAgent.execute` as a function of the context and
the cycle outcome; returns the updated context, the emitted events in order,
and the agent output (`.error msg` = the `{id, error}` output,
`.ok done` = the `{id, result: {done}}` output). -/
def navigatorExecute (ctx : NavContext) (outcome : CycleOutcome) :
    NavContext × List AgentEvent × Except String Bool :=
  let ctx1 : NavContext :=
    ⟨ctx.nSteps + 1, ctx.maxSteps, ctx.consecutiveFailures, ctx.maxFailures⟩
  if ctx1.maxSteps < ctx1.nSteps then
    (ctx1, [.taskFail "Reached maximum number of steps"],
      .error "Reached maximum number of steps")
  else
    let startMsg := "Executing step " ++ toString ctx1.nSteps ++ "/" ++
      toString ctx1.maxSteps
    match outcome with
    | .ok isDone =>
        if isDone then
          (ctx1, [.stepStart startMsg, .taskOk "Task completed successfully"],
            .ok true)
        else (ctx1, [.stepStart startMsg], .ok false)
    | .fail msg recoveryFails =>
        let ctx2 : NavContext :=
          ⟨ctx1.nSteps, ctx1.maxSteps, ctx1.consecutiveFailures + 1,
            ctx1.maxFailures⟩
        let tooMany := "Too many failures (" ++
          toString ctx2.consecutiveFailures ++ "/" ++
          toString ctx2.maxFailures ++ ")"
        if ctx2.maxFailures ≤ ctx2.consecutiveFailures then
          (ctx2, [.stepStart startMsg, .taskFail tooMany], .error tooMany)
        else if recoveryFails then
          (ctx2, [.stepStart startMsg, .stepFail msg,
            .taskFail "Failed to recover from error"],
            .error ("Failed to recover from error: " ++ msg))
        else
          (ctx2, [.stepStart startMsg, .stepFail msg], .ok false)

/-- Modelled from the spec: the step-loop driver (`agent/executor.ts` is not
under `src/`; only its callers are).  Per §4.4 the Executor repeatedly
invokes a navigator cycle; a cycle that returns an error output terminates
the task as Failed, a done result terminates as Done, otherwise the loop
re-enters the next cycle; per §3/§4.4 the failure counter is a
*consecutive*-failure count, so a successful cycle resets it to 0.  The
function returns the per-cycle records (context after the cycle, events,
output) of the cycles actually run, in order. -/
def executorLoop (outcomes : List CycleOutcome) (ctx : NavContext) :
    List (NavContext × List AgentEvent × Except String Bool) :=
  match outcomes with
  | [] => []
  | o :: rest =>
      let r := navigatorExecute ctx o
      match r.2.2 with
      | .error _ => [r]
      | .ok true => [r]
      | .ok false =>
          let ctxNext : NavContext :=
            match o with
            | .ok _ => ⟨r.1.nSteps, r.1.maxSteps, 0, r.1.maxFailures⟩
            | .fail _ _ => r.1
          r :: executorLoop rest ctxNext

/-- A cycle outcome is a failure with recoverable recovery. -/
def isPlainFail : CycleOutcome → Prop
  | .fail _ false => True
  | _ => False

/-- A failing cycle strictly below the failure budget: `STEP_FAIL` is
emitted, the counter is incremented, and a non-done result is returned. -/
theorem navigatorExecute_fail_below (ctx : NavContext) (m : String)
    (hstep : ¬ ctx.maxSteps < ctx.nSteps + 1)
    (hbelow : ¬ ctx.maxFailures ≤ ctx.consecutiveFailures + 1) :
    navigatorExecute ctx (.fail m false) =
      (⟨ctx.nSteps + 1, ctx.maxSteps, ctx.consecutiveFailures + 1,
          ctx.maxFailures⟩,
        [.stepStart ("Executing step " ++ toString (ctx.nSteps + 1) ++ "/" ++
          toString ctx.maxSteps), .stepFail m], .ok false) := by
  simp [navigatorExecute, hstep, hbelow]

/-- A failing cycle that reaches the failure budget: `TASK_FAIL` is emitted
and an error output is returned. -/
theorem navigatorExecute_fail_at (ctx : NavContext) (m : String)
    (hstep : ¬ ctx.maxSteps < ctx.nSteps + 1)
    (hthresh : ctx.maxFailures ≤ ctx.consecutiveFailures + 1) :
    navigatorExecute ctx (.fail m false) =
      (⟨ctx.nSteps + 1, ctx.maxSteps, ctx.consecutiveFailures + 1,
          ctx.maxFailures⟩,
        [.stepStart ("Executing step " ++ toString (ctx.nSteps + 1) ++ "/" ++
          toString ctx.maxSteps),
          .taskFail ("Too many failures (" ++
            toString (ctx.consecutiveFailures + 1) ++ "/" ++
            toString ctx.maxFailures ++ ")")],
        .error ("Too many failures (" ++
          toString (ctx.consecutiveFailures + 1) ++ "/" ++
          toString ctx.maxFailures ++ ")")) := by
  simp [navigatorExecute, hstep, hthresh]

/-- Unfolding the loop one step on a failing cycle below the budget. -/
theorem executorLoop_cons_failBelow (ctx : NavContext) (m : String)
    (rest : List CycleOutcome)
    (hstep : ¬ ctx.maxSteps < ctx.nSteps + 1)
    (hbelow : ¬ ctx.maxFailures ≤ ctx.consecutiveFailures + 1) :
    executorLoop ((.fail m false) :: rest) ctx =
      navigatorExecute ctx (.fail m false) ::
        executorLoop rest ⟨ctx.nSteps + 1, ctx.maxSteps,
          ctx.consecutiveFailures + 1, ctx.maxFailures⟩ := by
  have hnav := navigatorExecute_fail_below ctx m hstep hbelow
  simp [executorLoop, hnav]

/-- Unfolding the loop one step on a failing cycle that hits the budget: the
loop stops. -/
theorem executorLoop_cons_failAt (ctx : NavContext) (m : String)
    (rest : List CycleOutcome)
    (hstep : ¬ ctx.maxSteps < ctx.nSteps + 1)
    (hthresh : ctx.maxFailures ≤ ctx.consecutiveFailures + 1) :
    executorLoop ((.fail m false) :: rest) ctx =
      [navigatorExecute ctx (.fail m false)] := by
  have hnav := navigatorExecute_fail_at ctx m hstep hthresh
  simp [executorLoop, hnav]

/-- **C4.** After exactly `maxFailures` consecutive failed cycles (the
consecutive-failure counter reaching the configured maximum), the task
fails: the final cycle emits a `TASK_FAIL` event and returns an error output
instead of re-entering the cycle, so the step loop runs exactly the failing
cycles and no further perception or action calls occur — the trailing
outcomes `rest` are never consumed. -/
theorem maxFailures_stops_task (fails rest : List CycleOutcome)
    (ctx : NavContext)
    (hfail : ∀ o ∈ fails, isPlainFail o)
    (hcount : ctx.consecutiveFailures + fails.length = ctx.maxFailures)
    (hlen : 1 ≤ fails.length)
    (hsteps : ctx.nSteps + fails.length ≤ ctx.maxSteps) :
    executorLoop (fails ++ rest) ctx = executorLoop fails ctx ∧
      (executorLoop fails ctx).length = fails.length ∧
      (∃ e, (executorLoop fails ctx).getLast? = some e ∧
        ∃ msg, e.2.2 = .error msg ∧ AgentEvent.taskFail msg ∈ e.2.1) := by
  induction fails generalizing ctx rest with
  | nil => simp at hlen
  | cons o fails ih =>
      obtain ⟨m, rfl⟩ : ∃ m, o = CycleOutcome.fail m false := by
        have := hfail o (List.mem_cons_self o fails)
        match o with
        | .fail m false => exact ⟨m, rfl⟩
        | .fail m true => exact absurd this (by simp [isPlainFail])
        | .ok d => exact absurd this (by simp [isPlainFail])
      have hnostep : ¬ (ctx.maxSteps < ctx.nSteps + 1) := by
        simp only [List.length_cons] at hsteps
        omega
      cases fails with
      | nil =>
          have hthresh : ctx.maxFailures ≤ ctx.consecutiveFailures + 1 := by
            simp only [List.length_cons, List.length_nil] at hcount
            omega
          have hnav := navigatorExecute_fail_at ctx m hnostep hthresh
          refine ⟨?_, ?_, ?_⟩
          · rw [List.singleton_append,
              executorLoop_cons_failAt ctx m rest hnostep hthresh,
              executorLoop_cons_failAt ctx m [] hnostep hthresh]
          · rw [executorLoop_cons_failAt ctx m [] hnostep hthresh]
            rfl
          · refine ⟨navigatorExecute ctx (CycleOutcome.fail m false), ?_, ?_⟩
            · rw [executorLoop_cons_failAt ctx m [] hnostep hthresh]
              rfl
            · rw [hnav]
              exact ⟨_, rfl, by simp⟩
      | cons o2 fails2 =>
          have hthresh : ¬ (ctx.maxFailures ≤ ctx.consecutiveFailures + 1) := by
            simp only [List.length_cons] at hcount
            omega
          have hrec := ih rest
            ⟨ctx.nSteps + 1, ctx.maxSteps, ctx.consecutiveFailures + 1,
              ctx.maxFailures⟩
            (fun x hx => hfail x (List.mem_cons_of_mem _ hx))
            (by simp only [List.length_cons] at hcount ⊢; omega)
            (by simp)
            (by simp only [List.length_cons] at hsteps ⊢; omega)
          have hne : executorLoop (o2 :: fails2)
              ⟨ctx.nSteps + 1, ctx.maxSteps, ctx.consecutiveFailures + 1,
                ctx.maxFailures⟩ ≠ [] := by
            intro hemp
            have hl := hrec.2.1
            rw [hemp] at hl
            simp at hl
          refine ⟨?_, ?_, ?_⟩
          · rw [List.cons_append,
              executorLoop_cons_failBelow ctx m ((o2 :: fails2) ++ rest)
                hnostep hthresh,
              executorLoop_cons_failBelow ctx m (o2 :: fails2)
                hnostep hthresh,
              hrec.1]
          · rw [executorLoop_cons_failBelow ctx m (o2 :: fails2)
              hnostep hthresh]
            rw [List.length_cons, hrec.2.1]
            simp
          · obtain ⟨e, he, msg, hmsg, hmem⟩ := hrec.2.2
            refine ⟨e, ?_, msg, hmsg, hmem⟩
            obtain ⟨b, l2, hbl⟩ := List.exists_cons_of_ne_nil hne
            rw [executorLoop_cons_failBelow ctx m (o2 :: fails2)
              hnostep hthresh]
            rw [hbl] at he ⊢
            rw [List.getLast?_cons_cons]
            exact he

/-- Witness for **C4**: `maxFailures = 2`, two consecutive failing cycles;
the loop runs exactly those two cycles, the second fails the task, and the
trailing outcome is never consumed. -/
theorem maxFailures_stops_task_witness :
    executorLoop ([CycleOutcome.fail "a" false, CycleOutcome.fail "b" false] ++
        [CycleOutcome.ok false]) ⟨0, 10, 0, 2⟩ =
      executorLoop [CycleOutcome.fail "a" false, CycleOutcome.fail "b" false]
        ⟨0, 10, 0, 2⟩ ∧
    (executorLoop [CycleOutcome.fail "a" false, CycleOutcome.fail "b" false]
        ⟨0, 10, 0, 2⟩).length =
      [CycleOutcome.fail "a" false, CycleOutcome.fail "b" false].length ∧
    (∃ e, (executorLoop
        [CycleOutcome.fail "a" false, CycleOutcome.fail "b" false]
        ⟨0, 10, 0, 2⟩).getLast? = some e ∧
      ∃ msg, e.2.2 = .error msg ∧ AgentEvent.taskFail msg ∈ e.2.1) :=
  maxFailures_stops_task
    [CycleOutcome.fail "a" false, CycleOutcome.fail "b" false]
    [CycleOutcome.ok false] ⟨0, 10, 0, 2⟩
    (by simp [isPlainFail]) (by simp) (by simp) (by simp)

/-! ## Page state update (`Page._updateState`)

`_updateState` first probes page accessibility (`evaluate('1')`); on probe
failure it falls back to the browser's first page, or throws
`Browser closed: no valid pages available` when there is none.  It then
removes highlights, fetches the clickable-element content, optionally takes
a screenshot, reads the scroll info — all before touching `this._state` —
and finally assigns `elementTree`, `selectorMap`, `url`, then `await`s the
page title, then assigns `title`, `screenshot`, `pixelsAbove`,
`pixelsBelow`.  Every failure in the outer `try` is caught and the stored
`this._state` is returned as is. -/

/-- The `PageState` record held by the page abstraction. -/
structure PageState where
  elementTree : SnapNode
  selectorMap : List (Nat × SnapNode)
  tabId : Nat
  url : String
  title : String
  screenshot : Option String
  pixelsAbove : Nat
  pixelsBelow : Nat
  deriving Repr, DecidableEq

/-- Outcomes of the host calls performed by one `_updateState` cycle, in the
order the source awaits them.  `.error` marks a rejected promise. -/
structure UpdateEnv where
  /-- the `evaluate('1')` accessibility probe succeeds -/
  pageAccessible : Bool
  /-- number of pages `browser.pages()` reports when the probe fails -/
  browserPages : Nat
  /-- `removeHighlight()` rejects -/
  removeHighlightThrows : Bool
  /-- `getClickableElements` rejects -/
  contentThrows : Bool
  /-- `getClickableElements` result (`none` = it returned `null`) -/
  content : Option (SnapNode × List (Nat × SnapNode))
  /-- whether `useVision` is set (screenshot requested) -/
  useVision : Bool
  /-- result of `takeScreenshot()` (which rethrows its failures) -/
  screenshotResult : Except Unit (Option String)
  /-- result of `getScrollInfo()` -/
  scrollInfo : Except Unit (Nat × Nat)
  /-- `puppeteerPage.url()` (synchronous) -/
  url : String
  /-- result of `await puppeteerPage.title()` — awaited in the middle of the
  field assignments -/
  titleResult : Except Unit String

/-- Embedding of `Page._updateState`: returns the stored state after the
call together with the call's result (`.error` = the method threw,
`.ok st` = it returned `st`). -/
def updateState (st : PageState) (env : UpdateEnv) :
    PageState × Except String PageState :=
  if env.pageAccessible = false ∧ env.browserPages = 0 then
    (st, .error "Browser closed: no valid pages available")
  else if env.removeHighlightThrows then (st, .ok st)
  else if env.contentThrows then (st, .ok st)
  else
    match env.content with
    | none => (st, .ok st)
    | some (tree, selMap) =>
        match (if env.useVision then env.screenshotResult else .ok none) with
        | .error _ => (st, .ok st)
        | .ok screenshot =>
            match env.scrollInfo with
            | .error _ => (st, .ok st)
            | .ok (above, below) =>
                let st1 : PageState :=
                  { st with
                    elementTree := tree
                    selectorMap := selMap
                    url := env.url }
                match env.titleResult with
                | .error _ => (st1, .ok st1)
                | .ok t =>
                    let st2 : PageState :=
                      { st1 with
                        title := t
                        screenshot := screenshot
                        pixelsAbove := above
                        pixelsBelow := below }
                    (st2, .ok st2)

/-- A stored state before the failing cycle. -/
def stalePage : PageState :=
  ⟨.text "old", [], 1, "https://old.example/", "Old title", none, 3, 4⟩

/-- A cycle in which everything up to the field assignments succeeds, and
the mid-assignment `await puppeteerPage.title()` rejects (for example the
tab closes between the scroll-info read and the title fetch). -/
def titleFailEnv : UpdateEnv :=
  ⟨true, 1, false, false, some (.text "new", [(0, .text "new")]), false,
    .ok none, .ok (7, 8), "https://new.example/", .error ()⟩

/-- **C8** fails on the code: when the title fetch rejects after
`elementTree`, `selectorMap` and `url` have already been assigned, the catch
block returns the stored state, which now mixes new and old fields — it is
neither the previous state unchanged nor a wholesale replacement.  This
evaluates `_updateState` at that failing input. -/
theorem updateState_partial_mutation :
    (updateState stalePage titleFailEnv).2 =
      .ok (updateState stalePage titleFailEnv).1 ∧
    (updateState stalePage titleFailEnv).1.elementTree = .text "new" ∧
    (updateState stalePage titleFailEnv).1.url = "https://new.example/" ∧
    (updateState stalePage titleFailEnv).1.title = "Old title" ∧
    (updateState stalePage titleFailEnv).1.pixelsAbove = 3 ∧
    (updateState stalePage titleFailEnv).1 ≠ stalePage := by
  refine ⟨rfl, rfl, rfl, rfl, rfl, ?_⟩
  intro h
  have := congrArg PageState.url h
  simp [stalePage, titleFailEnv, updateState] at this

/-! ## Element locator (`Page.locateElement`)

`locateElement` walks the recorded ancestor-iframe chain top-down: each hop
queries the iframe element by its generated CSS selector and enters its
content frame, returning `null` (with a warning) when the iframe is not
found or its content is inaccessible.  The final element query and the
scroll-into-view call are wrapped in a `try`/`catch`; any failure there also
yields `null`. -/

/-- Outcomes of the browser round trips of one `locateElement` call.
`hopQuery k` is `currentFrame.$(iframe selector)` for the `k`-th iframe hop
(`.ok none` = selector matched nothing; the source does not guard this
await, so `.error` would propagate); `hopContentFrame k` is
`frameElement.contentFrame()` (`none` = content inaccessible);
`finalQuery` is the guarded element query and `scrollIntoView` the guarded
`_scrollIntoViewIfNeeded`. -/
structure LocateEnv where
  connected : Bool
  hopQuery : Nat → Except Unit (Option Nat)
  hopContentFrame : Nat → Option Unit
  finalQuery : Except Unit (Option Nat)
  scrollIntoView : Except Unit Unit

/-- The hop loop and the guarded final query of `locateElement`, processing
hops `k, …, k+remaining-1`. -/
def locateAux (env : LocateEnv) : Nat → Nat → Except Unit (Option Nat)
  | _, 0 =>
      match env.finalQuery with
      | .error _ => .ok none
      | .ok none => .ok none
      | .ok (some h) =>
          match env.scrollIntoView with
          | .error _ => .ok none
          | .ok _ => .ok (some h)
  | k, r + 1 =>
      match env.hopQuery k with
      | .error e => .error e
      | .ok none => .ok none
      | .ok (some _) =>
          match env.hopContentFrame k with
          | none => .ok none
          | some _ => locateAux env (k + 1) r

/-- Embedding of `Page.locateElement` for an element whose recorded parent
chain contains `hops` iframes: `.ok (some h)` = a live handle, `.ok none` =
the method returned `null`, `.error` = the method threw. -/
def locateElement (env : LocateEnv) (hops : Nat) : Except Unit (Option Nat) :=
  if env.connected = false then .ok none
  else locateAux env 0 hops

/-- Helper: the hop loop never throws when every hop query returns
normally, and reports not-found when a hop is inaccessible or the final
query finds nothing (or throws). -/
theorem locateAux_no_throw (env : LocateEnv) :
    ∀ (r k : Nat),
      (∀ j, j < r → ∃ res, env.hopQuery (k + j) = .ok res) →
      (∃ res, locateAux env k r = .ok res) ∧
      ((∀ j, j < r → env.hopQuery (k + j) ≠ .ok none ∧
          env.hopContentFrame (k + j) ≠ none) →
        env.finalQuery = .ok none → locateAux env k r = .ok none) := by
  intro r
  induction r with
  | zero =>
      intro k _hq
      constructor
      · match hfq : env.finalQuery with
        | .error _ => exact ⟨none, by simp [locateAux, hfq]⟩
        | .ok none => exact ⟨none, by simp [locateAux, hfq]⟩
        | .ok (some h) =>
            match hsv : env.scrollIntoView with
            | .error _ => exact ⟨none, by simp [locateAux, hfq, hsv]⟩
            | .ok _ => exact ⟨some h, by simp [locateAux, hfq, hsv]⟩
      · intro _hall hnone
        simp [locateAux, hnone]
  | succ r ih =>
      intro k hq
      obtain ⟨res0, hres0⟩ := hq 0 (Nat.succ_pos r)
      rw [Nat.add_zero] at hres0
      constructor
      · match res0 with
        | none => exact ⟨none, by simp [locateAux, hres0]⟩
        | some hndl =>
            match hcf : env.hopContentFrame k with
            | none => exact ⟨none, by simp [locateAux, hres0, hcf]⟩
            | some _ =>
                obtain ⟨res, hres⟩ := (ih (k + 1) (fun j hj => by
                  have := hq (j + 1) (by omega)
                  rwa [show k + (j + 1) = k + 1 + j by omega] at this)).1
                exact ⟨res, by simp [locateAux, hres0, hcf, hres]⟩
      · intro hall hnone
        have h0 := hall 0 (Nat.succ_pos r)
        rw [Nat.add_zero] at h0
        match res0 with
        | none => exact absurd hres0 h0.1
        | some hndl =>
            match hcf : env.hopContentFrame k with
            | none => exact absurd hcf h0.2
            | some _ =>
                have := (ih (k + 1) (fun j hj => by
                  have := hq (j + 1) (by omega)
                  rwa [show k + (j + 1) = k + 1 + j by omega] at this)).2
                  (fun j hj => by
                    have := hall (j + 1) (by omega)
                    rwa [show k + (j + 1) = k + 1 + j by omega] at this)
                  hnone
                simp [locateAux, hres0, hcf, this]

/-- **C6.** For every (possibly stale) element node, `locateElement` returns
the not-found value rather than throwing when its hop queries return
normally: the call always resolves, and in particular it resolves to `null`
whenever some iframe hop is inaccessible (iframe not found or content frame
unavailable) or the final element query finds nothing — the
stale-snapshot-after-removal case. -/
theorem locateElement_returns_not_found (env : LocateEnv) (hops : Nat)
    (hq : ∀ j, j < hops → ∃ res, env.hopQuery j = .ok res) :
    (∃ res, locateElement env hops = .ok res) ∧
    ((∀ j, j < hops → env.hopQuery j ≠ .ok none ∧
        env.hopContentFrame j ≠ none) →
      env.finalQuery = .ok none → locateElement env hops = .ok none) := by
  unfold locateElement
  by_cases hc : env.connected = false
  · rw [if_pos hc]
    exact ⟨⟨none, rfl⟩, fun _ _ => rfl⟩
  · rw [if_neg hc]
    have := locateAux_no_throw env hops 0 (fun j hj => by
      have := hq j hj
      rwa [Nat.zero_add])
    refine ⟨this.1, fun hall hnone => this.2 (fun j hj => by
      have := hall j hj
      rwa [Nat.zero_add]) hnone⟩

/-- Concrete locate environment for the witness: one iframe hop that
resolves, and a final query that finds nothing (the element was removed
after the snapshot). -/
def witnessLocateEnv : LocateEnv :=
  ⟨true, fun _ => .ok (some 5), fun _ => some (), .ok none, .ok ()⟩

/-- Witness for **C6**: with one resolvable hop and a removed target
element, `locateElement` resolves (to not-found) and does not throw. -/
theorem locateElement_returns_not_found_witness :
    (∃ res, locateElement witnessLocateEnv 1 = .ok res) ∧
    ((∀ j, j < 1 → witnessLocateEnv.hopQuery j ≠ .ok none ∧
        witnessLocateEnv.hopContentFrame j ≠ none) →
      witnessLocateEnv.finalQuery = .ok none →
      locateElement witnessLocateEnv 1 = .ok none) :=
  locateElement_returns_not_found witnessLocateEnv 1
    (fun _ _ => ⟨some 5, rfl⟩)

/-! ## Dropdown selection (`Page.selectDropdownOption`)

The method throws on a missing selector-map entry / disconnected page, a
non-`select` snapshot tag, or a failed locate; otherwise it evaluates a
script against the live element which finds the option whose *trimmed* text
equals the requested text exactly, assigns its value (dispatching events if
the value changed) and reports a message — and, per the source comment
"whether found or not, return the message", the method resolves with that
message even when no option matched. -/

/-- Model of JavaScript `String.prototype.trim`: strip whitespace from both
ends (defined structurally on the character list so that concrete instances
evaluate). -/
def jsTrim (s : String) : String :=
  ⟨((s.data.dropWhile Char.isWhitespace).reverse.dropWhile
      Char.isWhitespace).reverse⟩

/-- One `<option>` of the live `<select>`. -/
structure SelectOption where
  text : String
  value : String
  deriving Repr, DecidableEq

/-- Host-side outcomes of one `selectDropdownOption` call: the snapshot
element found in the selector map (its lowercased tag name), connection
state, the locate result, whether the live element is an `HTMLSelectElement`,
and the live option list. -/
structure DropdownEnv where
  element : Option String
  connected : Bool
  located : Option Nat
  liveIsSelect : Bool
  options : List SelectOption
  deriving Repr, DecidableEq

/-- The message built when no option's trimmed text equals the requested
text: it enumerates the actual available (trimmed) option texts. -/
def noMatchMessage (options : List SelectOption) (index : Nat)
    (text : String) : String :=
  "Option \"" ++ text ++ "\" not found in dropdown element with index " ++
    toString index ++ ". Available options: \"" ++
    String.intercalate "\", \"" (options.map (fun o => jsTrim o.text)) ++ "\""

/-- Embedding of `Page.selectDropdownOption`: `.error` = the method threw;
`.ok (msg, v)` = it resolved with message `msg`, having assigned value `v`
to the select (`none` = no assignment was made). -/
def selectDropdownOption (env : DropdownEnv) (index : Nat) (text : String) :
    Except String (String × Option String) :=
  match env.element, env.connected with
  | none, _ => .error "Element not found or puppeteer is not connected"
  | some _, false => .error "Element not found or puppeteer is not connected"
  | some tagName, true =>
      if tagName ≠ "select" then
        .error ("Cannot select option: Element with index " ++ toString index ++
          " is a " ++ tagName ++ ", not a SELECT")
      else
        match env.located with
        | none => .error ("Dropdown element with index " ++ toString index ++
            " not found")
        | some _ =>
            if env.liveIsSelect = false then
              .ok ("Element with index " ++ toString index ++
                " is not a SELECT", none)
            else
              match env.options.find? (fun o => jsTrim o.text == text) with
              | none => .ok (noMatchMessage env.options index text, none)
              | some opt =>
                  .ok ("Selected option \"" ++ text ++ "\" with value \"" ++
                    opt.value ++ "\"", some opt.value)

/-- A live select with options `Red` and `Blue` (requested text `Green`
matches none of them). -/
def cexDropdownEnv : DropdownEnv :=
  ⟨some "select", true, some 1, true, [⟨"Red", "r"⟩, ⟨"Blue", "b"⟩]⟩

/-- **C5** as stated is false on the code: with no exactly-matching option
the call does *not* fail — it resolves successfully (the source returns
`result.message` "whether found or not"), merely carrying the
options-enumerating message, and selects nothing. -/
theorem selectDropdownOption_no_match_does_not_fail :
    (∀ o ∈ cexDropdownEnv.options, jsTrim o.text ≠ "Green") ∧
    selectDropdownOption cexDropdownEnv 5 "Green" =
      .ok (noMatchMessage cexDropdownEnv.options 5 "Green", none) ∧
    ∀ e, selectDropdownOption cexDropdownEnv 5 "Green" ≠ .error e := by
  refine ⟨?_, rfl, ?_⟩
  · decide
  · intro e h
    rw [show selectDropdownOption cexDropdownEnv 5 "Green" =
      .ok (noMatchMessage cexDropdownEnv.options 5 "Green", none) from rfl]
      at h
    exact Except.noConfusion h

/-- **C5 (amended).** `selectDropdownOption` matches the requested text
against the live options by exact trimmed string equality and never selects
a closest/partial match: a value is assigned only for an option whose
trimmed text equals the requested text exactly; and when no option matches,
the call resolves (it does not throw) with the message that enumerates the
actual available option texts, selecting nothing. -/
theorem selectDropdownOption_exact_match (env : DropdownEnv) (index : Nat)
    (text : String)
    (htag : env.element = some "select") (hconn : env.connected = true)
    (hloc : ∃ h, env.located = some h) (hlive : env.liveIsSelect = true) :
    ((∀ o ∈ env.options, jsTrim o.text ≠ text) →
      selectDropdownOption env index text =
        .ok (noMatchMessage env.options index text, none)) ∧
    (∀ m v, selectDropdownOption env index text = .ok (m, some v) →
      ∃ o ∈ env.options, jsTrim o.text = text ∧ o.value = v) := by
  obtain ⟨hdl, hloc⟩ := hloc
  constructor
  · intro hno
    have hfind : env.options.find? (fun o => jsTrim o.text == text) = none := by
      rw [List.find?_eq_none]
      intro o ho
      simpa using hno o ho
    rw [selectDropdownOption, htag, hconn]
    simp only [hloc, hlive]
    rw [if_neg (by simp)]
    simp [hfind]
  · intro m v hok
    rw [selectDropdownOption, htag, hconn] at hok
    simp only [hloc, hlive] at hok
    rw [if_neg (by simp)] at hok
    simp only [Bool.true_eq_false, if_false] at hok
    match hfind : env.options.find? (fun o => jsTrim o.text == text) with
    | none => rw [hfind] at hok; simp at hok
    | some opt =>
        rw [hfind] at hok
        simp only [Except.ok.injEq, Prod.mk.injEq, Option.some.injEq] at hok
        refine ⟨opt, List.mem_of_find?_eq_some hfind, ?_, hok.2⟩
        have := List.find?_some hfind
        simpa using this

/-- Witness for **C5 (amended)** at the concrete environment
`cexDropdownEnv` and request `Green`. -/
theorem selectDropdownOption_exact_match_witness :
    ((∀ o ∈ cexDropdownEnv.options, jsTrim o.text ≠ "Green") →
      selectDropdownOption cexDropdownEnv 7 "Green" =
        .ok (noMatchMessage cexDropdownEnv.options 7 "Green", none)) ∧
    (∀ m v, selectDropdownOption cexDropdownEnv 7 "Green" = .ok (m, some v) →
      ∃ o ∈ cexDropdownEnv.options, jsTrim o.text = "Green" ∧ o.value = v) :=
  selectDropdownOption_exact_match cexDropdownEnv 7 "Green" rfl rfl ⟨1, rfl⟩ rfl

/-! ## Scrolling (`Page.scrollDown` → `HumanInteraction.humanScroll`)

`Page.scrollDown(amount?)` always routes through
`HumanInteraction.humanScroll(page, 'down', {distance: amount, speed:
amount ? 'medium' : 'slow', smooth: true})`.  In `humanScroll` a missing (or
zero) distance is auto-calculated as `Math.floor(window.innerHeight * 0.7)`;
the smooth path then splits the distance into `steps` scroll-by calls
(`steps ∈ [15,25]` for the `slow` profile used when no amount is given) of
`Math.floor(stepSize * variation)` pixels each, `stepSize =
Math.floor(scrollDistance / steps)` and `variation ∈ [0.8, 1.2]` random per
step.  Arithmetic is modelled exactly over rationals (variations as
numerator/denominator pairs); the IEEE evaluation of `innerHeight * 0.7`
can differ from `7 * innerHeight / 10` by at most one pixel, which none of
the statements below are sensitive to. -/

/-- `Math.floor(window.innerHeight * 0.7)` — the auto-calculated scroll
distance. -/
def autoScrollDistance (innerHeight : Nat) : Nat :=
  7 * innerHeight / 10

/-- The scroll distance `humanScroll` uses for a `scrollDown(amount?)` call:
the given amount, or the auto-calculated distance when the amount is absent
(or zero, since the source uses `distance = 0` as the sentinel). -/
def scrollDownDistance (innerHeight : Nat) (amount : Option Nat) : Nat :=
  match amount with
  | some a => if a = 0 then autoScrollDistance innerHeight else a
  | none => autoScrollDistance innerHeight

/-- Total pixels scrolled by the smooth path: per step
`Math.floor(stepSize * variation)` with `stepSize =
Math.floor(distance / steps)`; each variation is the rational
`v.1 / v.2`. -/
def smoothScrollTotal (distance steps : Nat) (vars : List (Nat × Nat)) : Nat :=
  (vars.map (fun v => distance / steps * v.1 / v.2)).sum

/-- **C7** as stated is false on the code: `scroll_down` with no amount uses
a base distance of `⌊0.7 · innerHeight⌋`, not one viewport height.  With
`innerHeight = 1000`, 15 steps (the minimum of the `slow` profile) and all
variations equal to 1, the total scrolled is 690 pixels, not 1000. -/
theorem scrollDown_default_total_ne_viewport :
    scrollDownDistance 1000 none = 700 ∧
    smoothScrollTotal (scrollDownDistance 1000 none) 15
      (List.replicate 15 (1, 1)) = 690 ∧
    smoothScrollTotal (scrollDownDistance 1000 none) 15
      (List.replicate 15 (1, 1)) ≠ 1000 := by
  refine ⟨rfl, ?_, ?_⟩ <;> decide

/-- **C7 (amended).** `scroll_down` with no amount scrolls by roughly 0.7 of
a viewport height, never a full one: the base distance is
`⌊0.7 · innerHeight⌋`, and for any positive viewport, any positive step
count and any per-step variations bounded by 1.2 (`5 * v.1 ≤ 6 * v.2`), the
total pixels scrolled are strictly less than `window.innerHeight`. -/
theorem scrollDown_default_less_than_viewport (h steps : Nat)
    (vars : List (Nat × Nat))
    (hh : 1 ≤ h) (_hsteps : 1 ≤ steps) (hlen : vars.length = steps)
    (hvars : ∀ v ∈ vars, 5 * v.1 ≤ 6 * v.2 ∧ 1 ≤ v.2) :
    scrollDownDistance h none = 7 * h / 10 ∧
    smoothScrollTotal (scrollDownDistance h none) steps vars < h := by
  refine ⟨rfl, ?_⟩
  set d := 7 * h / 10 with hd
  set k := d / steps with hk
  have hterm : ∀ x ∈ vars.map (fun v => d / steps * v.1 / v.2),
      x ≤ 6 * k / 5 := by
    intro x hx
    obtain ⟨v, hv, rfl⟩ := List.mem_map.1 hx
    obtain ⟨h1, h2⟩ := hvars v hv
    have ht : (k * v.1 / v.2) * v.2 ≤ k * v.1 := Nat.div_mul_le_self _ _
    have h5 : (k * v.1 / v.2) * 5 ≤ 6 * k := by
      have e2 : 5 * (k * v.1 / v.2 * v.2) ≤ 5 * (k * v.1) :=
        mul_le_mul_left' ht 5
      have e4 : k * (5 * v.1) ≤ k * (6 * v.2) := mul_le_mul_left' h1 k
      have echain : (k * v.1 / v.2 * 5) * v.2 ≤ (6 * k) * v.2 := by
        calc (k * v.1 / v.2 * 5) * v.2 = 5 * (k * v.1 / v.2 * v.2) := by ring
          _ ≤ 5 * (k * v.1) := e2
          _ = k * (5 * v.1) := by ring
          _ ≤ k * (6 * v.2) := e4
          _ = (6 * k) * v.2 := by ring
      exact Nat.le_of_mul_le_mul_right echain (by omega)
    rw [← hk]
    exact (Nat.le_div_iff_mul_le (by norm_num)).2 h5
  have hsum : smoothScrollTotal d steps vars ≤ vars.length * (6 * k / 5) := by
    have := List.sum_le_card_nsmul
      (vars.map (fun v => d / steps * v.1 / v.2)) (6 * k / 5) hterm
    simpa [smoothScrollTotal, smul_eq_mul] using this
  have hA : steps * (6 * k / 5) ≤ steps * (6 * k) / 5 := by
    rw [Nat.le_div_iff_mul_le (by norm_num : (0:Nat) < 5)]
    calc steps * (6 * k / 5) * 5 = steps * (6 * k / 5 * 5) := by ring
      _ ≤ steps * (6 * k) := mul_le_mul_left' (Nat.div_mul_le_self _ _) steps
  have hB : steps * (6 * k) / 5 ≤ 6 * d / 5 := by
    apply Nat.div_le_div_right
    have hkd : steps * k ≤ d := by
      rw [hk]
      calc steps * (d / steps) = d / steps * steps := by ring
        _ ≤ d := Nat.div_mul_le_self _ _
    calc steps * (6 * k) = 6 * (steps * k) := by ring
      _ ≤ 6 * d := mul_le_mul_left' hkd 6
  have hC : 6 * d / 5 < h := by
    rw [Nat.div_lt_iff_lt_mul (by norm_num : (0:Nat) < 5)]
    have hd10 : d * 10 ≤ 7 * h := by
      rw [hd]
      exact Nat.div_mul_le_self _ _
    omega
  calc smoothScrollTotal d steps vars ≤ vars.length * (6 * k / 5) := hsum
    _ = steps * (6 * k / 5) := by rw [hlen]
    _ ≤ steps * (6 * k) / 5 := hA
    _ ≤ 6 * d / 5 := hB
    _ < h := hC

/-- Witness for **C7 (amended)** at `innerHeight = 1000`, 15 unit-variation
steps. -/
theorem scrollDown_default_less_than_viewport_witness :
    scrollDownDistance 1000 none = 7 * 1000 / 10 ∧
    smoothScrollTotal (scrollDownDistance 1000 none) 15
      (List.replicate 15 (1, 1)) < 1000 :=
  scrollDown_default_less_than_viewport 1000 15 (List.replicate 15 (1, 1))
    (by decide) (by decide) (by decide) (by decide)

/-! ## File-uploader detection and the click action
(`Page.isFileUploader`, `ActionBuilder.buildDefaultActions` → `click_element`)

`isFileUploader(elementNode, maxDepth = 3, currentDepth = 0)` reports true
when the node (or an element descendant within the depth budget) is an
`input` whose `type` attribute lowercases to `file` or whose `accept`
attribute is truthy (present and non-empty).  The `click_element` handler
resolves the index through the selector map and, when the element is a file
uploader, returns a successful `ActionResult` telling the model to use the
upload action, without ever calling `clickElementNode`. -/

/-- A DOM element node of the snapshot as the click action sees it
(`DOMElementNode` / `DOMTextNode` of `dom/views`). -/
inductive DNode where
  | text (content : String)
  | elem (tagName : String) (attrs : List (String × String)) (kids : List DNode)

/-- Attribute lookup (`elementNode.attributes[name]`). -/
def getAttr (attrs : List (String × String)) (name : String) : Option String :=
  (attrs.find? (fun p => p.1 == name)).map (fun p => p.2)

/-- Model of JavaScript `String.prototype.toLowerCase` (structural, so that
concrete instances evaluate). -/
def jsToLower (s : String) : String :=
  ⟨s.data.map Char.toLower⟩

/-- The self-check of `isFileUploader`: an `input` element whose `type`
lowercases to `file`, or with a truthy (non-empty) `accept` attribute. -/
def isFileInput : DNode → Bool
  | .text _ => false
  | .elem tagName attrs _ =>
      tagName == "input" &&
        ((match getAttr attrs "type" with
          | some t => jsToLower t == "file"
          | none => false) ||
         (match getAttr attrs "accept" with
          | some a => !(a == "")
          | none => false))

/-- Recursion of `isFileUploader` with `remaining = maxDepth - currentDepth`
levels of descent left: the element itself is checked at every level;
children (element children only — the `'tagName' in child` guard) are
recursed into while descent budget remains. -/
def isFileUploaderAux : Nat → DNode → Bool
  | 0, node => isFileInput node
  | r + 1, node =>
      isFileInput node ||
        (match node with
          | .text _ => []
          | .elem _ _ kids => kids).any
          (fun c => match c with
            | .text _ => false
            | .elem t a k => isFileUploaderAux r (.elem t a k))

/-- Embedding of `Page.isFileUploader(elementNode, maxDepth, currentDepth)`. -/
def isFileUploader (node : DNode) (maxDepth currentDepth : Nat) : Bool :=
  if maxDepth < currentDepth then false
  else isFileUploaderAux (maxDepth - currentDepth) node

/-- The message the click handler returns for a file-uploader element. -/
def fileUploaderMsg (index : Nat) : String :=
  "Index " ++ toString index ++
    " - has an element which opens file upload dialog. To upload files please use a specific function to upload files"

/-- Host-side outcomes of one `click_element` invocation: the selector map
of the perceived state, and whether the actual `clickElementNode` call (when
reached) throws. -/
structure ClickEnv where
  selectorMap : List (Nat × DNode)
  clickThrows : Bool
  clickErrMsg : String
  clickedMsg : String

/-- Embedding of the `click_element` handler: first component is the
handler's outcome (`.error` = it threw), second is whether
`page.clickElementNode` was invoked. -/
def clickElementAction (env : ClickEnv) (index : Nat) :
    Except String ActionResult × Bool :=
  match (env.selectorMap.find? (fun p => p.1 == index)).map (fun p => p.2) with
  | none => (.error ("Element with index " ++ toString index ++
      " does not exist - retry or use alternative actions"), false)
  | some node =>
      if isFileUploader node 3 0 then
        (.ok ⟨some (fileUploaderMsg index), none, false, true⟩, false)
      else if env.clickThrows then
        (.ok ⟨none, some env.clickErrMsg, false, false⟩, true)
      else (.ok ⟨some env.clickedMsg, none, false, true⟩, true)

/-- **C9.** For every click action whose target index resolves to an element
that `isFileUploader` flags (on the node or a descendant within depth 3),
the handler returns a *successful* `ActionResult` (no error) whose message
says to use the file-upload action instead, and `clickElementNode` is never
invoked, so the action cannot block on a native dialog. -/
theorem clickElement_fileUploader_returns_msg (env : ClickEnv) (index : Nat)
    (node : DNode)
    (hsel : (env.selectorMap.find? (fun p => p.1 == index)).map
      (fun p => p.2) = some node)
    (hfile : isFileUploader node 3 0 = true) :
    clickElementAction env index =
      (.ok ⟨some (fileUploaderMsg index), none, false, true⟩, false) := by
  simp [clickElementAction, hsel, hfile]

/-- Concrete selector map for the witness: index 4 holds a button whose
child is `<input type="FILE">`. -/
def witnessClickEnv : ClickEnv :=
  ⟨[(4, .elem "button" [] [.elem "input" [("type", "FILE")] []])],
    false, "err", "clicked"⟩

/-- Witness for **C9** at the concrete file-uploader element of
`witnessClickEnv`. -/
theorem clickElement_fileUploader_returns_msg_witness :
    clickElementAction witnessClickEnv 4 =
      (.ok ⟨some (fileUploaderMsg 4), none, false, true⟩, false) :=
  clickElement_fileUploader_returns_msg witnessClickEnv 4
    (.elem "button" [] [.elem "input" [("type", "FILE")] []])
    rfl (by decide)

/-! ## Action dispatch (`Action.call`)

`Action.call(input)` checks whether the action's zod schema is an object
schema with an empty shape; if so it calls the handler with `{}` and the
input is ignored entirely.  Otherwise it runs `safeParse` on the input,
throws `InvalidInputError` when parsing fails (the handler is never
reached), and calls the handler on the parsed data otherwise. -/

/-- Model of one registered `Action` over abstract input/parsed-argument
types: the emptiness test of its zod object schema, the `safeParse`
validator, the `{}` value, and the handler. -/
structure ActionModel (Input Parsed : Type) where
  isEmptyObjectSchema : Bool
  safeParse : Input → Except String Parsed
  emptyArgs : Parsed
  handler : Parsed → ActionResult

/-- Embedding of `Action.call`: the outcome (`.error msg` = an
`InvalidInputError` carrying the zod message was thrown) together with the
list of arguments the handler was invoked on (the handler-call trace; `[]`
= the handler never ran, so no side effects occurred). -/
def actionCall {Input Parsed : Type} (a : ActionModel Input Parsed)
    (input : Input) : Except String ActionResult × List Parsed :=
  if a.isEmptyObjectSchema then
    (.ok (a.handler a.emptyArgs), [a.emptyArgs])
  else
    match a.safeParse input with
    | .error msg => (.error msg, [])
    | .ok parsed => (.ok (a.handler parsed), [parsed])

/-- **C10.** For every registered action, `Action.call` validates the input
before the handler runs: with a non-empty (or non-object) schema, an input
that fails validation makes the call throw an `InvalidInputError` carrying
the zod message and the handler is never invoked (empty handler-call trace,
hence no side effects); with an empty object schema, the input is ignored
entirely — the call result does not depend on it — and the handler is
invoked once with the empty argument object. -/
theorem actionCall_validates_input {Input Parsed : Type}
    (a : ActionModel Input Parsed) :
    (a.isEmptyObjectSchema = false → ∀ (input : Input) (msg : String),
      a.safeParse input = .error msg →
      actionCall a input = (.error msg, [])) ∧
    (a.isEmptyObjectSchema = true → ∀ input input2 : Input,
      actionCall a input = (.ok (a.handler a.emptyArgs), [a.emptyArgs]) ∧
      actionCall a input = actionCall a input2) := by
  constructor
  · intro hne input msg hparse
    simp [actionCall, hne, hparse]
  · intro he input input2
    simp [actionCall, he]

/-- Concrete action with a non-empty schema whose validator accepts only
the input `"5"`. -/
def wActionNonEmpty : ActionModel String Nat :=
  ⟨false, fun s => if s == "5" then .ok 5 else .error "invalid", 0,
    fun n => ⟨some (toString n), none, false, true⟩⟩

/-- Concrete action with an empty object schema. -/
def wActionEmpty : ActionModel String Nat :=
  ⟨true, fun _ => .error "never", 0, fun _ => ⟨some "ok", none, false, false⟩⟩

/-- Witness for **C10**: the non-empty-schema action rejects `"bad"` without
running its handler; the empty-schema action ignores its input and runs the
handler on the empty arguments. -/
theorem actionCall_validates_input_witness :
    actionCall wActionNonEmpty "bad" = (.error "invalid", []) ∧
    actionCall wActionEmpty "x" =
      (.ok (wActionEmpty.handler wActionEmpty.emptyArgs),
        [wActionEmpty.emptyArgs]) ∧
    actionCall wActionEmpty "x" = actionCall wActionEmpty "y" :=
  ⟨(actionCall_validates_input wActionNonEmpty).1 rfl "bad" "invalid" rfl,
    ((actionCall_validates_input wActionEmpty).2 rfl "x" "y").1,
    ((actionCall_validates_input wActionEmpty).2 rfl "x" "y").2⟩

end Nanobrowser
